import Mathlib

/-!
Shallow embedding of the dual-momentum notifier (src/dualMomentum.ts).

Return values are modelled as rationals.  The external price-data provider
is modelled as a function from tickers to either an error or a fetched
monthly history; each history row carries the optional adjusted close and
the optional raw close of one monthly sample, where a present-but-not-finite
number (NaN or an infinity in the source language) is distinguished from an
absent value because the nullish-coalescing operator only falls through on
absent values while the numeric filter drops both.
-/

namespace DualMomentum

/-- Tickers of the configured assets (the ASSETS constant of the source). -/
def ASSETS_US : String := "VOO"

def ASSETS_INTL : String := "VXUS"

def ASSETS_BONDS : String := "BND"

def RISK_FREE_SYMBOL : String := "BIL"

def LOOKBACK_MONTHS : Nat := 12

def SKIP_LAST_MONTH : Bool := true

inductive Winner where
  | US : Winner
  | INTL : Winner
deriving DecidableEq, Repr

/-- Name of a winner as rendered into the report strings. -/
def winnerName : Winner → String
  | Winner.US => "US"
  | Winner.INTL => "INTL"

/-- Lookup of the underlying ticker of a winner (ASSETS[winner]). -/
def assetTicker : Winner → String
  | Winner.US => ASSETS_US
  | Winner.INTL => ASSETS_INTL

/-- Errors raised by the strategy: the insufficient-price-data error thrown
by getReturn, and a provider-level fetch error carrying a message. -/
inductive StratError where
  | insufficientData : String → StratError
  | providerError : String → StratError
deriving DecidableEq, Repr

/-- A JavaScript-ish optional numeric field: absent (null or undefined),
present but not finite (NaN or an infinity), or a finite number. -/
inductive JsVal where
  | missing : JsVal
  | nonFinite : JsVal
  | num : ℚ → JsVal
deriving DecidableEq, Repr

/-- One row of the fetched monthly history: optional adjClose and close. -/
structure HistRow where
  adjClose : JsVal
  close : JsVal
deriving DecidableEq, Repr

/-- Embedding of the per-row extraction
(h.adjClose ?? h.close ?? null, then the isNumber filter):
the nullish coalescing falls back to close only when adjClose is absent,
and non-finite values are dropped by the filter. -/
def extractClose (h : HistRow) : Option ℚ :=
  match h.adjClose with
  | JsVal.num q => some q
  | JsVal.nonFinite => none
  | JsVal.missing =>
    match h.close with
    | JsVal.num q => some q
    | _ => none

/-- The list of numeric closes retained by getReturn: map and filter every
row, then drop the final sample when the skip-last-month flag is set
(closes.slice(0, -1)). -/
def retainedCloses (history : List HistRow) (skipLast : Bool) : List ℚ :=
  let closes := history.filterMap extractClose
  if skipLast then closes.dropLast else closes

/-- Pure core of getReturn, acting on an already fetched history: with
fewer than 2 retained closes it throws the insufficient-data error,
otherwise it returns endPrice / startPrice - 1. -/
def getReturnOfHistory (ticker : String) (history : List HistRow)
    (skipLast : Bool) : Except StratError ℚ :=
  let closes := retainedCloses history skipLast
  if closes.length < 2 then
    Except.error (StratError.insufficientData ticker)
  else
    Except.ok (closes.getLastD 0 / closes.headD 0 - 1)

/-- Embedding of getReturn(ticker): fetch the monthly history from the
provider (propagating a provider error unmodified), then reduce it with the
globally configured skip-last-month flag. -/
def getReturn (fetch : String → Except StratError (List HistRow))
    (ticker : String) : Except StratError ℚ :=
  match fetch ticker with
  | Except.error e => Except.error e
  | Except.ok history => getReturnOfHistory ticker history SKIP_LAST_MONTH

/-- Fixed-point rendering with two digits after the decimal point, the
toFixed(2) step of toPercent.  The nearest multiple of 1/100 is chosen and
on a tie the larger one, matching the toFixed rounding rule; the two
fractional digits are zero-padded. -/
def toFixed2 (x : ℚ) : String :=
  let n : ℤ := round (x * 100)
  let sign : String := if n < 0 then "-" else ""
  let m : ℕ := n.natAbs
  let ip : ℕ := m / 100
  let fp : ℕ := m % 100
  sign ++ Nat.repr ip ++ "." ++ (if fp < 10 then "0" else "") ++ Nat.repr fp

/-- Embedding of toPercent(v) = (v * 100).toFixed(2) + percent sign. -/
def toPercent (v : ℚ) : String :=
  toFixed2 (v * 100) ++ "%"

/-- Relative momentum of line 103: usReturn > intlReturn picks US,
otherwise INTL (so an exact tie picks INTL). -/
def relativeWinner (usReturn intlReturn : ℚ) : Winner :=
  if usReturn > intlReturn then Winner.US else Winner.INTL

/-- The recommendation string of the passing branch of momentumStrategy. -/
def passRecommendation (w : Winner) (riskFreeReturn : ℚ) : String :=
  "Allocate 100% to " ++ winnerName w ++ " (" ++ assetTicker w ++
    "). (Beats risk-free " ++ toPercent riskFreeReturn ++ ")"

/-- The recommendation string of the failing branch of momentumStrategy. -/
def failRecommendation (w : Winner) (winnerRet riskFreeReturn : ℚ) : String :=
  "Move to Bonds (" ++ ASSETS_BONDS ++ "). Absolute momentum failed: " ++
    winnerName w ++ " 12m " ++ toPercent winnerRet ++ " <= Risk-free (" ++
    toPercent riskFreeReturn ++ ")."

/-- The structured result of momentumStrategy. -/
structure MomentumResult where
  usReturn : ℚ
  intlReturn : ℚ
  riskFreeReturn : ℚ
  winner : Option Winner
  recommendation : String
  absoluteFilterPassed : Bool
deriving DecidableEq, Repr

/-- Pure decision core of momentumStrategy (lines 102 to 127), acting on
the three already computed returns. -/
def momentumCore (usReturn intlReturn riskFreeReturn : ℚ) : MomentumResult :=
  let winner : Winner := relativeWinner usReturn intlReturn
  let winnerRet : ℚ := max usReturn intlReturn
  let absoluteFilterPassed : Bool := decide (winnerRet > riskFreeReturn)
  { usReturn := usReturn
    intlReturn := intlReturn
    riskFreeReturn := riskFreeReturn
    winner := if absoluteFilterPassed then some winner else none
    recommendation :=
      if absoluteFilterPassed then passRecommendation winner riskFreeReturn
      else failRecommendation winner winnerRet riskFreeReturn
    absoluteFilterPassed := absoluteFilterPassed }

/-- Combination of the three fetched returns: the first error (in the
order US, INTL, risk-free) aborts the evaluation, mirroring an await of
Promise.all over the three getReturn calls. -/
def momentumStrategyE (rUS rINTL rRF : Except StratError ℚ) :
    Except StratError MomentumResult :=
  match rUS with
  | Except.error e => Except.error e
  | Except.ok usReturn =>
    match rINTL with
    | Except.error e => Except.error e
    | Except.ok intlReturn =>
      match rRF with
      | Except.error e => Except.error e
      | Except.ok riskFreeReturn =>
        Except.ok (momentumCore usReturn intlReturn riskFreeReturn)

/-- Embedding of momentumStrategy(), parameterised by the provider. -/
def momentumStrategy (fetch : String → Except StratError (List HistRow)) :
    Except StratError MomentumResult :=
  momentumStrategyE (getReturn fetch ASSETS_US) (getReturn fetch ASSETS_INTL)
    (getReturn fetch RISK_FREE_SYMBOL)

/-- The needle list starts the haystack list (character-wise equality). -/
def leadsList (needle hay : List Char) : Bool :=
  match needle, hay with
  | [], _ => true
  | _ :: _, [] => false
  | a :: ns, b :: hs => a == b && leadsList ns hs

/-- The needle list occurs contiguously somewhere inside the haystack. -/
def occursIn (needle hay : List Char) : Bool :=
  match hay with
  | [] => needle.isEmpty
  | b :: t => leadsList needle (b :: t) || occursIn needle t

/-- String containment test used to state that a report names a ticker. -/
def containsStr (hay needle : String) : Bool :=
  occursIn needle.data hay.data

/-- White-space characters skipped by the integer parser: the common
ASCII white space plus the no-break space. -/
def isJsWhitespace (c : Char) : Bool :=
  c == ' ' || c == '\t' || c == '\n' || c == '\r' ||
    c.toNat == 11 || c.toNat == 12 || c.toNat == 160

/-- Value of a list of decimal digit characters. -/
def digitsToNat (ds : List Char) : ℕ :=
  ds.foldl (fun a c => a * 10 + (c.toNat - 48)) 0

/-- Model of Number.parseInt(s, 10): skip leading white space, read an
optional sign, then the longest run of decimal digits, ignoring any
trailing characters; none models the NaN result of a digitless input.
Huge inputs that overflow to an infinity in the source language are kept
exact here, which is harmless downstream because every consumer only
compares the parse against small ranges that both representations fail. -/
def parseInt10 (s : String) : Option ℤ :=
  let cs := s.data.dropWhile isJsWhitespace
  let signed : ℤ × List Char :=
    match cs with
    | '-' :: rest => (-1, rest)
    | '+' :: rest => (1, rest)
    | rest => (1, rest)
  let ds := signed.2.takeWhile Char.isDigit
  if ds.isEmpty then none
  else some (signed.1 * (digitsToNat ds : ℤ))

/-- The taxable-rebalance window configuration. -/
structure TaxableConfig where
  month : ℤ
  windowDays : ℤ
deriving DecidableEq, Repr

/-- The month guard of getTaxableConfig: a finite parse between 1 and 12
is kept, anything else falls back to the default month 1. -/
def clampMonth (o : Option ℤ) : ℤ :=
  match o with
  | some m => if 1 ≤ m ∧ m ≤ 12 then m else 1
  | none => 1

/-- The window guard of getTaxableConfig: a finite parse that is positive
and at most 31 is kept, anything else falls back to the default 7. -/
def clampWindow (o : Option ℤ) : ℤ :=
  match o with
  | some w => if 0 < w ∧ w ≤ 31 then w else 7
  | none => 7

/-- Embedding of getTaxableConfig(), with the two environment variables
passed explicitly (none when the variable is unset): parse each with the
default string substituted for a missing variable, then keep a finite
parse inside the legal range and fall back to the default otherwise. -/
def getTaxableConfig (envMonth envWindow : Option String) : TaxableConfig :=
  { month := clampMonth (parseInt10 (envMonth.getD "1"))
    windowDays := clampWindow (parseInt10 (envWindow.getD "7")) }

/-- The fields of a date that the window predicate reads: getMonth() + 1
(1 to 12) and getDate() (1 to 31). -/
structure SimpleDate where
  month : ℤ
  day : ℤ
deriving DecidableEq, Repr

/-- Embedding of isInTaxableAnnualWindow(d): the current month equals the
configured month and the day of the month is at most windowDays. -/
def isInTaxableAnnualWindow (envMonth envWindow : Option String)
    (d : SimpleDate) : Bool :=
  let c := getTaxableConfig envMonth envWindow
  decide (d.month = c.month ∧ d.day ≤ c.windowDays)

/-! Helper lemmas shared by the claim theorems. -/

theorem momentumCore_pass (us intl rf : ℚ) (h : rf < max us intl) :
    momentumCore us intl rf =
      { usReturn := us, intlReturn := intl, riskFreeReturn := rf,
        winner := some (relativeWinner us intl),
        recommendation := passRecommendation (relativeWinner us intl) rf,
        absoluteFilterPassed := true } := by
  have hd : decide (max us intl > rf) = true := decide_eq_true h
  simp only [momentumCore, hd, ite_true]

theorem momentumCore_fail (us intl rf : ℚ) (h : max us intl ≤ rf) :
    momentumCore us intl rf =
      { usReturn := us, intlReturn := intl, riskFreeReturn := rf,
        winner := none,
        recommendation :=
          failRecommendation (relativeWinner us intl) (max us intl) rf,
        absoluteFilterPassed := false } := by
  have hd : decide (max us intl > rf) = false :=
    decide_eq_false (not_lt.mpr h)
  simp only [momentumCore, hd]
  rfl

theorem leadsList_append (n x y : List Char) (h : leadsList n x = true) :
    leadsList n (x ++ y) = true := by
  induction x generalizing n with
  | nil =>
    cases n with
    | nil => simp [leadsList]
    | cons a ns => simp [leadsList] at h
  | cons b bs ih =>
    cases n with
    | nil => simp [leadsList]
    | cons a ns =>
      simp only [leadsList, Bool.and_eq_true] at h
      simp only [List.cons_append, leadsList, Bool.and_eq_true]
      exact ⟨h.1, ih ns h.2⟩

theorem occursIn_nil_needle (y : List Char) : occursIn [] y = true := by
  induction y with
  | nil => simp [occursIn]
  | cons b t ih => simp [occursIn, leadsList]

theorem occursIn_append_left (n x y : List Char) (h : occursIn n x = true) :
    occursIn n (x ++ y) = true := by
  induction x with
  | nil =>
    simp only [occursIn, List.isEmpty_iff] at h
    subst h
    simpa using occursIn_nil_needle y
  | cons b bs ih =>
    simp only [occursIn, Bool.or_eq_true] at h
    simp only [List.cons_append, occursIn, Bool.or_eq_true]
    cases h with
    | inl hl => exact Or.inl (leadsList_append n (b :: bs) y hl)
    | inr hr => exact Or.inr (ih hr)

theorem containsStr_append_right (a b n : String)
    (h : containsStr a n = true) : containsStr (a ++ b) n = true := by
  unfold containsStr at h ⊢
  rw [String.data_append]
  exact occursIn_append_left n.data a.data b.data h

/-! Claim theorems. -/

/-- C1: whenever one equity return is strictly greater than the other and
the greater of the two beats the risk-free return, momentumStrategy
reports a passing absolute filter and picks the strictly greater equity
as the winner (US when usReturn is greater, INTL when intlReturn is). -/
theorem momentum_relative_winner (us intl rf : ℚ)
    (habs : max us intl > rf) :
    (momentumCore us intl rf).absoluteFilterPassed = true ∧
    (us > intl → (momentumCore us intl rf).winner = some Winner.US) ∧
    (intl > us → (momentumCore us intl rf).winner = some Winner.INTL) ∧
    momentumStrategyE (Except.ok us) (Except.ok intl) (Except.ok rf)
      = Except.ok (momentumCore us intl rf) := by
  have hcore := momentumCore_pass us intl rf habs
  refine ⟨?_, fun h => ?_, fun h => ?_, rfl⟩
  · rw [hcore]
  · rw [hcore]
    simp [relativeWinner, if_pos h]
  · rw [hcore]
    simp [relativeWinner, if_neg (lt_asymm h)]

/-- Witness for C1 at the concrete triple (0.10, 0.04, 0.03). -/
theorem momentum_relative_winner_witness :
    (momentumCore (1/10) (1/25) (3/100)).absoluteFilterPassed = true ∧
    (momentumCore (1/10) (1/25) (3/100)).winner = some Winner.US := by
  have h := momentum_relative_winner (1/10) (1/25) (3/100)
    (by rw [gt_iff_lt, lt_max_iff]; norm_num)
  exact ⟨h.1, h.2.1 (by norm_num)⟩

/-- C2: whenever the better equity return does not exceed the risk-free
return, momentumStrategy reports a failing absolute filter, a null
winner, and a recommendation naming the defensive bond ticker. -/
theorem momentum_absolute_filter_fails (us intl rf : ℚ)
    (h : max us intl ≤ rf) :
    (momentumCore us intl rf).absoluteFilterPassed = false ∧
    (momentumCore us intl rf).winner = none ∧
    containsStr (momentumCore us intl rf).recommendation ASSETS_BONDS
      = true ∧
    momentumStrategyE (Except.ok us) (Except.ok intl) (Except.ok rf)
      = Except.ok (momentumCore us intl rf) := by
  have hcore := momentumCore_fail us intl rf h
  refine ⟨?_, ?_, ?_, rfl⟩
  · rw [hcore]
  · rw [hcore]
  · rw [hcore]
    show containsStr (failRecommendation (relativeWinner us intl)
      (max us intl) rf) ASSETS_BONDS = true
    unfold failRecommendation
    iterate 7 apply containsStr_append_right
    decide

/-- Witness for C2 at the concrete triple (0.02, 0.01, 0.05). -/
theorem momentum_absolute_filter_fails_witness :
    (momentumCore (1/50) (1/100) (1/20)).absoluteFilterPassed = false ∧
    (momentumCore (1/50) (1/100) (1/20)).winner = none ∧
    containsStr (momentumCore (1/50) (1/100) (1/20)).recommendation
      ASSETS_BONDS = true := by
  have h := momentum_absolute_filter_fails (1/50) (1/100) (1/20)
    (by rw [max_le_iff]; norm_num)
  exact ⟨h.1, h.2.1, h.2.2.1⟩

/-- C3 counterexample: on the exact tie 0 = 0 the nominal relative winner
is INTL, not US, because the strict comparison fails on equality; with a
passing filter the reported winner is likewise INTL. -/
theorem tie_break_counterexample :
    relativeWinner 0 0 = Winner.INTL ∧ relativeWinner 0 0 ≠ Winner.US ∧
    (momentumCore 0 0 (-1)).winner = some Winner.INTL := by decide

/-- C3 amended: on an exact tie the nominal relative-momentum winner is
INTL (the strict greater-than comparison picks US only when the US return
is strictly greater). -/
theorem tie_break_resolves_to_INTL (us intl : ℚ) (h : us = intl) :
    relativeWinner us intl = Winner.INTL := by
  subst h
  simp [relativeWinner]

/-- Witness for the amended C3 at the concrete tie (0, 0). -/
theorem tie_break_resolves_to_INTL_witness :
    relativeWinner 0 0 = Winner.INTL :=
  tie_break_resolves_to_INTL 0 0 rfl

/-- C4: getReturn keeps the adjusted-close (fallback raw close) of each
numeric sample, drops the final sample under the skip-last-month flag,
and on a history whose retained closes number at least 2 returns exactly
the last retained close divided by the first, minus one. -/
theorem getReturn_total_return
    (fetch : String → Except StratError (List HistRow)) (ticker : String)
    (history : List HistRow) (f l : ℚ)
    (hfetch : fetch ticker = Except.ok history)
    (hlen : 2 ≤ (retainedCloses history SKIP_LAST_MONTH).length)
    (hhead : (retainedCloses history SKIP_LAST_MONTH).head? = some f)
    (hlast : (retainedCloses history SKIP_LAST_MONTH).getLast? = some l) :
    retainedCloses history SKIP_LAST_MONTH
        = (history.filterMap extractClose).dropLast ∧
    getReturn fetch ticker = Except.ok (l / f - 1) := by
  constructor
  · simp [retainedCloses, SKIP_LAST_MONTH]
  · unfold getReturn
    rw [hfetch]
    simp only [getReturnOfHistory]
    rw [if_neg (by omega)]
    have h1 : (retainedCloses history SKIP_LAST_MONTH).headD 0 = f := by
      rw [List.headD_eq_head?, hhead]
      rfl
    have h2 : (retainedCloses history SKIP_LAST_MONTH).getLastD 0 = l := by
      rw [List.getLastD_eq_getLast?, hlast]
      rfl
    rw [h1, h2]

/-- Witness for C4: a six-row history exercising the close fallback, the
dropping of non-numeric rows, and the final-sample trim; the retained
closes are 100, 110, 120 and the result is 120 / 100 - 1 = 1 / 5. -/
theorem getReturn_total_return_witness :
    getReturn (fun _ => Except.ok
      [⟨JsVal.missing, JsVal.num 100⟩, ⟨JsVal.nonFinite, JsVal.num 5⟩,
       ⟨JsVal.num 110, JsVal.missing⟩, ⟨JsVal.num 120, JsVal.num 999⟩,
       ⟨JsVal.missing, JsVal.missing⟩, ⟨JsVal.num 130, JsVal.missing⟩])
      "VOO" = Except.ok (1/5) := by
  have h := getReturn_total_return (fun _ => Except.ok
      [⟨JsVal.missing, JsVal.num 100⟩, ⟨JsVal.nonFinite, JsVal.num 5⟩,
       ⟨JsVal.num 110, JsVal.missing⟩, ⟨JsVal.num 120, JsVal.num 999⟩,
       ⟨JsVal.missing, JsVal.missing⟩, ⟨JsVal.num 130, JsVal.missing⟩])
      "VOO"
      [⟨JsVal.missing, JsVal.num 100⟩, ⟨JsVal.nonFinite, JsVal.num 5⟩,
       ⟨JsVal.num 110, JsVal.missing⟩, ⟨JsVal.num 120, JsVal.num 999⟩,
       ⟨JsVal.missing, JsVal.missing⟩, ⟨JsVal.num 130, JsVal.missing⟩]
      100 120 rfl (by decide) (by decide) (by decide)
  rw [h.2]
  simp only [Except.ok.injEq]
  norm_num

/-- C5: when fewer than 2 numeric closes remain after filtering and
trimming, getReturn fails with the insufficient-data error for that
ticker and produces no return value. -/
theorem getReturn_insufficient_data
    (fetch : String → Except StratError (List HistRow)) (ticker : String)
    (history : List HistRow)
    (hfetch : fetch ticker = Except.ok history)
    (hlen : (retainedCloses history SKIP_LAST_MONTH).length < 2) :
    getReturn fetch ticker
      = Except.error (StratError.insufficientData ticker) := by
  unfold getReturn
  rw [hfetch]
  simp only [getReturnOfHistory]
  rw [if_pos hlen]

/-- Witness for C5: two numeric samples of which the trim drops one,
leaving a single usable close. -/
theorem getReturn_insufficient_data_witness :
    getReturn (fun _ => Except.ok
      [⟨JsVal.num 100, JsVal.missing⟩, ⟨JsVal.num 110, JsVal.missing⟩])
      "VOO" = Except.error (StratError.insufficientData "VOO") :=
  getReturn_insufficient_data (fun _ => Except.ok
      [⟨JsVal.num 100, JsVal.missing⟩, ⟨JsVal.num 110, JsVal.missing⟩])
    "VOO"
    [⟨JsVal.num 100, JsVal.missing⟩, ⟨JsVal.num 110, JsVal.missing⟩]
    rfl (by decide)

theorem momentumStrategyE_error_US (e : StratError)
    (r2 r3 : Except StratError ℚ) :
    momentumStrategyE (Except.error e) r2 r3 = Except.error e := rfl

theorem momentumStrategyE_error_INTL (u : ℚ) (e : StratError)
    (r3 : Except StratError ℚ) :
    momentumStrategyE (Except.ok u) (Except.error e) r3
      = Except.error e := rfl

theorem momentumStrategyE_error_RF (u i : ℚ) (e : StratError) :
    momentumStrategyE (Except.ok u) (Except.ok i) (Except.error e)
      = Except.error e := rfl

/-- C6: if any of the three underlying return computations fails, the
whole strategy evaluation fails: it never yields an ok result, and the
error it fails with is one raised by a failing computation. -/
theorem momentumStrategy_error_propagation
    (fetch : String → Except StratError (List HistRow)) (e : StratError)
    (h : getReturn fetch ASSETS_US = Except.error e ∨
         getReturn fetch ASSETS_INTL = Except.error e ∨
         getReturn fetch RISK_FREE_SYMBOL = Except.error e) :
    (∀ r, momentumStrategy fetch ≠ Except.ok r) ∧
    (∃ e2, momentumStrategy fetch = Except.error e2 ∧
      (getReturn fetch ASSETS_US = Except.error e2 ∨
       getReturn fetch ASSETS_INTL = Except.error e2 ∨
       getReturn fetch RISK_FREE_SYMBOL = Except.error e2)) := by
  cases hU : getReturn fetch ASSETS_US with
  | error eU =>
    have hs : momentumStrategy fetch = Except.error eU := by
      unfold momentumStrategy
      rw [hU]
      exact momentumStrategyE_error_US eU _ _
    refine ⟨fun r hr => ?_, eU, hs, Or.inl rfl⟩
    rw [hs] at hr
    exact Except.noConfusion hr
  | ok u =>
    cases hI : getReturn fetch ASSETS_INTL with
    | error eI =>
      have hs : momentumStrategy fetch = Except.error eI := by
        unfold momentumStrategy
        rw [hU, hI]
        exact momentumStrategyE_error_INTL u eI _
      refine ⟨fun r hr => ?_, eI, hs, Or.inr (Or.inl rfl)⟩
      rw [hs] at hr
      exact Except.noConfusion hr
    | ok i =>
      cases hR : getReturn fetch RISK_FREE_SYMBOL with
      | error eR =>
        have hs : momentumStrategy fetch = Except.error eR := by
          unfold momentumStrategy
          rw [hU, hI, hR]
          exact momentumStrategyE_error_RF u i eR
        refine ⟨fun r hr => ?_, eR, hs, Or.inr (Or.inr rfl)⟩
        rw [hs] at hr
        exact Except.noConfusion hr
      | ok q =>
        exfalso
        rcases h with h1 | h1 | h1
        · rw [hU] at h1
          exact Except.noConfusion h1
        · rw [hI] at h1
          exact Except.noConfusion h1
        · rw [hR] at h1
          exact Except.noConfusion h1

/-- Witness for C6: a provider that always fails makes the whole strategy
fail, so no result is produced. -/
theorem momentumStrategy_error_propagation_witness :
    momentumStrategy (fun _ => Except.error (StratError.providerError "down"))
      ≠ Except.ok (momentumCore 0 0 0) :=
  (momentumStrategy_error_propagation
    (fun _ => Except.error (StratError.providerError "down"))
    (StratError.providerError "down") (Or.inl rfl)).1 (momentumCore 0 0 0)

/-- C7: the annual-window predicate holds exactly when the month of the
date equals the configured month and the day is at most the configured
window length; with environment month 9 and window 3 days, 2025-09-02 is
inside while 2025-09-10 and 2025-01-02 are outside. -/
theorem isInTaxableAnnualWindow_spec :
    (∀ envMonth envWindow d,
      isInTaxableAnnualWindow envMonth envWindow d = true ↔
        (d.month = (getTaxableConfig envMonth envWindow).month ∧
         d.day ≤ (getTaxableConfig envMonth envWindow).windowDays)) ∧
    isInTaxableAnnualWindow (some "9") (some "3") (SimpleDate.mk 9 2)
      = true ∧
    isInTaxableAnnualWindow (some "9") (some "3") (SimpleDate.mk 9 10)
      = false ∧
    isInTaxableAnnualWindow (some "9") (some "3") (SimpleDate.mk 1 2)
      = false := by
  refine ⟨fun em ew d => ?_, by decide, by decide, by decide⟩
  simp [isInTaxableAnnualWindow]

theorem clampMonth_mem (o : Option ℤ) :
    1 ≤ clampMonth o ∧ clampMonth o ≤ 12 := by
  cases o with
  | none => simp [clampMonth]
  | some m =>
    simp only [clampMonth]
    split_ifs with h <;> omega

theorem clampWindow_mem (o : Option ℤ) :
    1 ≤ clampWindow o ∧ clampWindow o ≤ 31 := by
  cases o with
  | none => simp [clampWindow]
  | some w =>
    simp only [clampWindow]
    split_ifs with h <;> omega

/-- C10: for every environment the taxable config has a month between 1
and 12 and a window between 1 and 31 days, and the defaults month 1 and
window 7 are substituted whenever the corresponding variable is absent or
its parse is not a finite number inside the legal range. -/
theorem getTaxableConfig_valid (envMonth envWindow : Option String) :
    (1 ≤ (getTaxableConfig envMonth envWindow).month ∧
     (getTaxableConfig envMonth envWindow).month ≤ 12 ∧
     1 ≤ (getTaxableConfig envMonth envWindow).windowDays ∧
     (getTaxableConfig envMonth envWindow).windowDays ≤ 31) ∧
    (parseInt10 (envMonth.getD "1") = none →
      (getTaxableConfig envMonth envWindow).month = 1) ∧
    (∀ m, parseInt10 (envMonth.getD "1") = some m → ¬(1 ≤ m ∧ m ≤ 12) →
      (getTaxableConfig envMonth envWindow).month = 1) ∧
    (parseInt10 (envWindow.getD "7") = none →
      (getTaxableConfig envMonth envWindow).windowDays = 7) ∧
    (∀ w, parseInt10 (envWindow.getD "7") = some w → ¬(0 < w ∧ w ≤ 31) →
      (getTaxableConfig envMonth envWindow).windowDays = 7) ∧
    (envMonth = none → (getTaxableConfig envMonth envWindow).month = 1) ∧
    (envWindow = none →
      (getTaxableConfig envMonth envWindow).windowDays = 7) := by
  obtain ⟨hm1, hm2⟩ := clampMonth_mem (parseInt10 (envMonth.getD "1"))
  obtain ⟨hw1, hw2⟩ := clampWindow_mem (parseInt10 (envWindow.getD "7"))
  refine ⟨⟨hm1, hm2, hw1, hw2⟩, ?_, ?_, ?_, ?_, ?_, ?_⟩
  · intro h
    show clampMonth (parseInt10 (envMonth.getD "1")) = 1
    rw [h]
    rfl
  · intro m hm hrange
    show clampMonth (parseInt10 (envMonth.getD "1")) = 1
    rw [hm]
    simp only [clampMonth]
    rw [if_neg hrange]
  · intro h
    show clampWindow (parseInt10 (envWindow.getD "7")) = 7
    rw [h]
    rfl
  · intro w hw hrange
    show clampWindow (parseInt10 (envWindow.getD "7")) = 7
    rw [hw]
    simp only [clampWindow]
    rw [if_neg hrange]
  · intro h
    subst h
    show clampMonth (parseInt10 ((none : Option String).getD "1")) = 1
    decide
  · intro h
    subst h
    show clampWindow (parseInt10 ((none : Option String).getD "7")) = 7
    decide

/-- Witness for C10: an out-of-range month (0) and an out-of-range window
(99) are both replaced by their defaults, and the result is in range. -/
theorem getTaxableConfig_valid_witness :
    (getTaxableConfig (some "0") (some "99")).month = 1 ∧
    (getTaxableConfig (some "0") (some "99")).windowDays = 7 ∧
    1 ≤ (getTaxableConfig (some "0") (some "99")).month := by
  have h := getTaxableConfig_valid (some "0") (some "99")
  exact ⟨h.2.2.1 0 (by decide) (by decide),
    h.2.2.2.2.1 99 (by decide) (by decide), h.1.1⟩

theorem two_digit_pad (fp : ℕ) (h : fp < 100) :
    ((if fp < 10 then "0" else "") ++ Nat.repr fp).length = 2 := by
  revert h
  revert fp
  decide

/-- C9: the percentage renderer produces a two-decimal fixed-point
percentage, and at exactly 0.0823 it renders the string 8.23 percent. -/
theorem toPercent_two_decimals :
    toPercent (823/10000) = "8.23%" ∧
    (∀ v : ℚ, ∃ (sign : String) (ip fp : ℕ),
      (sign = "" ∨ sign = "-") ∧ fp < 100 ∧
      ((if fp < 10 then "0" else "") ++ Nat.repr fp).length = 2 ∧
      toPercent v = sign ++ Nat.repr ip ++ "." ++
        (if fp < 10 then "0" else "") ++ Nat.repr fp ++ "%") := by
  constructor
  · simp only [toPercent, toFixed2]
    rw [show round ((823/10000 : ℚ) * 100 * 100) = 823 by
      rw [round_eq]; norm_num]
    decide
  · intro v
    refine ⟨if round (v * 100 * 100) < 0 then "-" else "",
      (round (v * 100 * 100)).natAbs / 100,
      (round (v * 100 * 100)).natAbs % 100, ?_, ?_, ?_, ?_⟩
    · split_ifs with h
      · exact Or.inr rfl
      · exact Or.inl rfl
    · exact Nat.mod_lt _ (by norm_num)
    · exact two_digit_pad _ (Nat.mod_lt _ (by norm_num))
    · rfl

theorem leadsList_refl (n : List Char) : leadsList n n = true := by
  induction n with
  | nil => rfl
  | cons a ns ih => simp [leadsList, ih]

theorem containsStr_self (s : String) : containsStr s s = true := by
  unfold containsStr
  cases h : s.data with
  | nil => simp [occursIn]
  | cons b t =>
    simp only [occursIn, Bool.or_eq_true]
    exact Or.inl (by rw [← h]; rw [h]; exact leadsList_refl (b :: t))

theorem occursIn_append_right (n x y : List Char)
    (h : occursIn n y = true) : occursIn n (x ++ y) = true := by
  induction x with
  | nil => simpa using h
  | cons b bs ih =>
    simp only [List.cons_append, occursIn, Bool.or_eq_true]
    exact Or.inr ih

theorem containsStr_append_left (a b n : String)
    (h : containsStr b n = true) : containsStr (a ++ b) n = true := by
  unfold containsStr at h ⊢
  rw [String.data_append]
  exact occursIn_append_right n.data a.data b.data h

/-- C8 amended: when the absolute filter passes, the recommendation
allocates 100 percent to the underlying ticker of the winner and includes
the risk-free return that was beaten; the margin itself is not rendered
into the string. -/
theorem pass_recommendation_contents (us intl rf : ℚ)
    (h : max us intl > rf) :
    (momentumCore us intl rf).recommendation =
      "Allocate 100% to " ++ winnerName (relativeWinner us intl) ++ " (" ++
        assetTicker (relativeWinner us intl) ++ "). (Beats risk-free " ++
        toPercent rf ++ ")" ∧
    containsStr (momentumCore us intl rf).recommendation
      (assetTicker (relativeWinner us intl)) = true ∧
    containsStr (momentumCore us intl rf).recommendation (toPercent rf)
      = true := by
  have hcore := momentumCore_pass us intl rf h
  rw [hcore]
  refine ⟨rfl, ?_, ?_⟩
  · show containsStr (passRecommendation (relativeWinner us intl) rf)
      (assetTicker (relativeWinner us intl)) = true
    unfold passRecommendation
    iterate 3 apply containsStr_append_right
    apply containsStr_append_left
    exact containsStr_self _
  · show containsStr (passRecommendation (relativeWinner us intl) rf)
      (toPercent rf) = true
    unfold passRecommendation
    iterate 1 apply containsStr_append_right
    apply containsStr_append_left
    exact containsStr_self _

/-- Witness for the amended C8 at the concrete triple (0.10, 0.04, 0.03). -/
theorem pass_recommendation_contents_witness :
    containsStr (momentumCore (1/10) (1/25) (3/100)).recommendation
      (assetTicker (relativeWinner (1/10) (1/25))) = true ∧
    containsStr (momentumCore (1/10) (1/25) (3/100)).recommendation
      (toPercent (3/100)) = true := by
  have h := pass_recommendation_contents (1/10) (1/25) (3/100)
    (by rw [gt_iff_lt, lt_max_iff]; norm_num)
  exact ⟨h.2.1, h.2.2⟩

/-- C8 counterexample: at the passing triple (0.10, 0.04, 0.03) the
recommendation is exactly the string below, which names the risk-free
return 3.00 percent but does not contain the margin 7.00 percent by which
the winner beat it, nor even the winner return 10.00 percent. -/
theorem pass_recommendation_counterexample :
    (momentumCore (1/10) (1/25) (3/100)).absoluteFilterPassed = true ∧
    (momentumCore (1/10) (1/25) (3/100)).recommendation
      = "Allocate 100% to US (VOO). (Beats risk-free 3.00%)" ∧
    containsStr (momentumCore (1/10) (1/25) (3/100)).recommendation
      (toPercent (1/10 - 3/100)) = false ∧
    containsStr (momentumCore (1/10) (1/25) (3/100)).recommendation
      (toPercent (1/10)) = false := by
  have hpass : max ((1:ℚ)/10) (1/25) > 3/100 := by
    rw [gt_iff_lt, lt_max_iff]
    norm_num
  have hcore := momentumCore_pass (1/10) (1/25) (3/100) hpass
  have hw : relativeWinner (1/10) (1/25) = Winner.US := by
    unfold relativeWinner
    rw [if_pos (by norm_num : ((1:ℚ)/25 < 1/10))]
  have h3 : toPercent ((3:ℚ)/100) = "3.00%" := by
    simp only [toPercent, toFixed2]
    rw [show round ((3/100 : ℚ) * 100 * 100) = 300 by rw [round_eq]; norm_num]
    decide
  have hrec : (momentumCore (1/10) (1/25) (3/100)).recommendation
      = "Allocate 100% to US (VOO). (Beats risk-free 3.00%)" := by
    rw [hcore]
    show passRecommendation (relativeWinner (1/10) (1/25)) (3/100)
      = "Allocate 100% to US (VOO). (Beats risk-free 3.00%)"
    rw [hw]
    unfold passRecommendation
    rw [h3]
    decide
  have h7 : toPercent ((1:ℚ)/10 - 3/100) = "7.00%" := by
    simp only [toPercent, toFixed2]
    rw [show round (((1:ℚ)/10 - 3/100) * 100 * 100) = 700 by
      rw [round_eq]; norm_num]
    decide
  have h10 : toPercent ((1:ℚ)/10) = "10.00%" := by
    simp only [toPercent, toFixed2]
    rw [show round (((1:ℚ)/10) * 100 * 100) = 1000 by rw [round_eq]; norm_num]
    decide
  refine ⟨by rw [hcore], hrec, ?_, ?_⟩
  · rw [hrec, h7]
    decide
  · rw [hrec, h10]
    decide

end DualMomentum
